import Mathlib

/-!
Verification of the quantlab-cpp backtesting core: a shallow embedding of
the portfolio bookkeeping (`backtest_engine.hpp` / `backtest_engine.cpp`),
the incremental indicators (`rolling_ema.hpp`, `rsi.hpp`,
`bollinger_bands.hpp`) and the mean-reversion signal generator
(`mean_reversion_strategy.hpp`).  C++ `double` arithmetic is modelled
exactly over `ℚ` (and over `ℝ` where a square root occurs); C++ `int`
is modelled as `ℤ` (as `ℕ` for the Bollinger window length, which the
program only ever uses with positive values).
-/

namespace Quantlab

/-- One entry of `Portfolio::trade_history` (struct `Trade` in
`backtest_engine.hpp`). -/
structure Trade where
  timestamp : String
  action : String
  price : ℚ
  shares : ℤ
  value : ℚ
  confidence : ℚ
  reason : String
deriving DecidableEq

/-- The mutable portfolio state (struct `Portfolio` in `backtest_engine.hpp`). -/
structure Portfolio where
  cash : ℚ
  shares_held : ℤ
  last_buy_price : ℚ
  trade_history : List Trade
  daily_values : List ℚ
  peak_value : ℚ
deriving DecidableEq

/-- `Portfolio::get_total_value`: `cash + shares_held * current_price`. -/
def Portfolio.get_total_value (p : Portfolio) (current_price : ℚ) : ℚ :=
  p.cash + p.shares_held * current_price

/-- `Portfolio::can_buy`: `cash >= price * shares`. -/
def Portfolio.can_buy (p : Portfolio) (price : ℚ) (shares : ℤ) : Prop :=
  price * shares ≤ p.cash

instance (p : Portfolio) (price : ℚ) (shares : ℤ) :
    Decidable (p.can_buy price shares) := by
  unfold Portfolio.can_buy; infer_instance

/-- `Portfolio::execute_buy`: if affordable, pay `price*shares`, add the
shares, record the last buy price and append a BUY trade; otherwise do
nothing. -/
def Portfolio.execute_buy (p : Portfolio) (price : ℚ) (shares : ℤ)
    (confidence : ℚ) (reason : String) : Portfolio :=
  if p.can_buy price shares then
    { p with
      cash := p.cash - price * shares
      shares_held := p.shares_held + shares
      last_buy_price := price
      trade_history := p.trade_history ++
        [⟨"timestamp", "BUY", price, shares, price * shares, confidence, reason⟩] }
  else p

/-- `Portfolio::execute_sell`: if enough shares are held, receive
`price*shares`, remove the shares and append a SELL trade; otherwise do
nothing. -/
def Portfolio.execute_sell (p : Portfolio) (price : ℚ) (shares : ℤ)
    (confidence : ℚ) (reason : String) : Portfolio :=
  if shares ≤ p.shares_held then
    { p with
      cash := p.cash + price * shares
      shares_held := p.shares_held - shares
      trade_history := p.trade_history ++
        [⟨"timestamp", "SELL", price, shares, price * shares, confidence, reason⟩] }
  else p

/-- The metrics snapshot (struct `BacktestMetrics` in `backtest_engine.hpp`). -/
structure BacktestMetrics where
  total_return_pct : ℚ
  annual_return_pct : ℚ
  sharpe_ratio : ℚ
  max_drawdown_pct : ℚ
  total_trades : ℕ
  winning_trades : ℕ
  losing_trades : ℕ
  win_rate_pct : ℚ
  avg_win : ℚ
  avg_loss : ℚ
  profit_factor : ℚ
  starting_capital : ℚ
  ending_capital : ℚ
  max_capital : ℚ
  current_position_value : ℚ
deriving DecidableEq

/-- Accumulator of the trade-cycle P&L loop in
`BacktestEngine::calculate_final_metrics`. -/
structure CycleState where
  winning_trades : ℕ
  losing_trades : ℕ
  total_wins : ℚ
  total_losses : ℚ
  current_position_cost : ℚ
  current_shares : ℤ
  completed_trades : ℕ
deriving DecidableEq

/-- One iteration of the trade-history walk in
`BacktestEngine::calculate_final_metrics`: a BUY adds to the open
position; a SELL with an open position realizes average-cost P&L and
reduces the cost basis proportionally. -/
def cycle_step (s : CycleState) (t : Trade) : CycleState :=
  if t.action = "BUY" then
    { s with
      current_position_cost := s.current_position_cost + t.value
      current_shares := s.current_shares + t.shares }
  else if t.action = "SELL" ∧ 0 < s.current_shares then
    let avg_cost_per_share := s.current_position_cost / s.current_shares
    let profit_loss := (t.price - avg_cost_per_share) * t.shares
    let s1 :=
      if 0 < profit_loss then
        { s with
          winning_trades := s.winning_trades + 1
          total_wins := s.total_wins + profit_loss
          completed_trades := s.completed_trades + 1 }
      else
        { s with
          losing_trades := s.losing_trades + 1
          total_losses := s.total_losses + |profit_loss|
          completed_trades := s.completed_trades + 1 }
    let shares_sold_ratio : ℚ := (t.shares : ℚ) / (s.current_shares : ℚ)
    { s1 with
      current_position_cost :=
        s1.current_position_cost - s1.current_position_cost * shares_sold_ratio
      current_shares := s1.current_shares - t.shares }
  else s

/-- One iteration of the max-drawdown walk over `daily_values` in
`BacktestEngine::calculate_final_metrics`: the accumulator is
`(peak, max_drawdown_pct)`. -/
def drawdown_step (acc : ℚ × ℚ) (value : ℚ) : ℚ × ℚ :=
  let peak := if acc.1 < value then value else acc.1
  let drawdown := (peak - value) / peak * 100
  (peak, if acc.2 < drawdown then drawdown else acc.2)

/-- `BacktestEngine::calculate_final_metrics(final_price)`, as a pure
function of the engine's starting capital and portfolio.  The `peak` of
the drawdown walk starts at `starting_capital`. -/
def calculate_final_metrics (starting_capital : ℚ) (p : Portfolio)
    (final_price : ℚ) : BacktestMetrics :=
  let ending_capital := p.get_total_value final_price
  let total_return_pct :=
    (ending_capital - starting_capital) / starting_capital * 100
  let c := p.trade_history.foldl cycle_step ⟨0, 0, 0, 0, 0, 0, 0⟩
  let win_rate_pct :=
    if 0 < c.completed_trades then
      (c.winning_trades : ℚ) / (c.completed_trades : ℚ) * 100
    else 0
  let avg_win :=
    if 0 < c.completed_trades then
      (if 0 < c.winning_trades then c.total_wins / (c.winning_trades : ℚ) else 0)
    else 0
  let avg_loss :=
    if 0 < c.completed_trades then
      (if 0 < c.losing_trades then c.total_losses / (c.losing_trades : ℚ) else 0)
    else 0
  let profit_factor :=
    if 0 < c.completed_trades then
      (if 0 < c.total_losses then c.total_wins / c.total_losses else 0)
    else 0
  let max_drawdown_pct :=
    (p.daily_values.foldl drawdown_step (starting_capital, 0)).2
  let sharpe_ratio :=
    if 2 < total_return_pct then (total_return_pct - 2) / 15 else 0
  { total_return_pct := total_return_pct
    annual_return_pct := 0
    sharpe_ratio := sharpe_ratio
    max_drawdown_pct := max_drawdown_pct
    total_trades := p.trade_history.length
    winning_trades := c.winning_trades
    losing_trades := c.losing_trades
    win_rate_pct := win_rate_pct
    avg_win := avg_win
    avg_loss := avg_loss
    profit_factor := profit_factor
    starting_capital := starting_capital
    ending_capital := ending_capital
    max_capital := 0
    current_position_value := p.shares_held * final_price }

/-- One external call to `Portfolio::execute_buy` or
`Portfolio::execute_sell`, with its arguments. -/
inductive TradeOp where
  | buy (price : ℚ) (shares : ℤ) (confidence : ℚ) (reason : String)
  | sell (price : ℚ) (shares : ℤ) (confidence : ℚ) (reason : String)

/-- The price argument of a buy or sell call. -/
def TradeOp.price : TradeOp → ℚ
  | .buy price _ _ _ => price
  | .sell price _ _ _ => price

/-- The share-count argument of a buy or sell call. -/
def TradeOp.shares : TradeOp → ℤ
  | .buy _ shares _ _ => shares
  | .sell _ shares _ _ => shares

/-- Perform one buy or sell call on the portfolio. -/
def Portfolio.apply_op (p : Portfolio) : TradeOp → Portfolio
  | .buy price shares confidence reason =>
      p.execute_buy price shares confidence reason
  | .sell price shares confidence reason =>
      p.execute_sell price shares confidence reason

/-- Perform a sequence of buy and sell calls, in order. -/
def Portfolio.apply_ops (p : Portfolio) (ops : List TradeOp) : Portfolio :=
  ops.foldl Portfolio.apply_op p

/-- The exponential moving average (`class RollingEMA` in
`rolling_ema.hpp`): `alpha = 2/(period+1)`; the first observation
bootstraps the average. -/
structure RollingEMA where
  alpha : ℚ
  initialized : Bool
  current_ema : ℚ
deriving DecidableEq

/-- The `RollingEMA(period)` constructor. -/
def RollingEMA.create (period : ℤ) : RollingEMA :=
  ⟨2 / ((period : ℚ) + 1), false, 0⟩

/-- `RollingEMA::update`: first price becomes the initial EMA, afterwards
`current_ema = alpha * price + (1 - alpha) * current_ema`. -/
def RollingEMA.update (e : RollingEMA) (price : ℚ) : RollingEMA :=
  if e.initialized = false then
    { e with current_ema := price, initialized := true }
  else
    { e with current_ema := e.alpha * price + (1 - e.alpha) * e.current_ema }

/-- `RollingEMA::reset`. -/
def RollingEMA.reset (e : RollingEMA) : RollingEMA :=
  { e with current_ema := 0, initialized := false }

/-- The relative-strength index (`class RSI` in `rsi.hpp`); the value
returned by `RSI::update` is the `current_rsi` field of the post state. -/
structure RSI where
  gains_ema : RollingEMA
  losses_ema : RollingEMA
  previous_price : ℚ
  current_rsi : ℚ
  initialized : Bool
deriving DecidableEq

/-- The `RSI(period)` constructor: both EMAs over `period`, RSI starts
neutral at 50. -/
def RSI.create (period : ℤ) : RSI :=
  ⟨RollingEMA.create period, RollingEMA.create period, 0, 50, false⟩

/-- `RSI::update`: on the first call only store the price; afterwards feed
the gain `(change > 0 ? change : 0)` and the loss
`(change < 0 ? -change : 0)` into the two EMAs and recompute the RSI from
their values with the zero-gain and zero-loss fallbacks. -/
def RSI.update (r : RSI) (price : ℚ) : RSI :=
  if r.initialized = false then
    { r with previous_price := price, initialized := true }
  else
    let change := price - r.previous_price
    let gain := if 0 < change then change else 0
    let loss := if change < 0 then -change else 0
    let g := r.gains_ema.update gain
    let l := r.losses_ema.update loss
    let avg_gain := g.current_ema
    let avg_loss := l.current_ema
    let rsi :=
      if avg_loss = 0 ∧ avg_gain = 0 then 50
      else if avg_loss = 0 then 100
      else 100 - 100 / (1 + avg_gain / avg_loss)
    { gains_ema := g, losses_ema := l, previous_price := price,
      current_rsi := rsi, initialized := true }

/-- `RSI::reset`: reset both EMAs (their `alpha` is kept), clear the
previous price, return the RSI to neutral 50. -/
def RSI.reset (r : RSI) : RSI :=
  { gains_ema := r.gains_ema.reset, losses_ema := r.losses_ema.reset,
    previous_price := 0, current_rsi := 50, initialized := false }

/-- Numeric well-formedness of an EMA as constructed with a positive
period: `0 < alpha ≤ 1` and a nonnegative accumulated value. -/
def RollingEMA.Inv (e : RollingEMA) : Prop :=
  0 < e.alpha ∧ e.alpha ≤ 1 ∧ 0 ≤ e.current_ema

/-- Invariant of the RSI state: well-formed gain and loss EMAs and an RSI
value in `[0, 100]`. -/
def RSI.Inv (r : RSI) : Prop :=
  r.gains_ema.Inv ∧ r.losses_ema.Inv ∧ 0 ≤ r.current_rsi ∧ r.current_rsi ≤ 100

/-- The three bands (`struct BollingerBandsResult` in
`bollinger_bands.hpp`); real-valued because of the square root. -/
structure BollingerBandsResult where
  upper_band : ℝ
  middle_band : ℝ
  lower_band : ℝ

/-- The Bollinger-band state (`class BollingerBands` in
`bollinger_bands.hpp`).  The C++ `int period_` is only ever used with
positive values, so it is modelled as `ℕ`; prices are kept as `ℚ`. -/
structure BollingerBands where
  period : ℕ
  std_dev_multiplier : ℝ
  price_history : List ℚ
  current_bands : BollingerBandsResult
  initialized : Bool

/-- Steps 1 and 2 of `BollingerBands::update`: push the new price at the
back and pop the front (oldest) price when the window exceeds `period`. -/
def BollingerBands.next_window (b : BollingerBands) (price : ℚ) : List ℚ :=
  let h := b.price_history ++ [price]
  if b.period < h.length then h.tail else h

/-- Step 4 of `BollingerBands::update`: `sma = accumulate(window) / period`. -/
def window_sma (w : List ℚ) (period : ℕ) : ℚ :=
  w.sum / (period : ℚ)

/-- Step 5 of `BollingerBands::update`: the accumulated
`Σ (p - sma)·(p - sma)` over the window. -/
def window_variance_sum (w : List ℚ) (sma : ℚ) : ℚ :=
  (w.map fun p => (p - sma) * (p - sma)).sum

/-- `BollingerBands::update`: maintain the rolling window; with fewer than
`period` prices return the zero result, otherwise return
`{sma + k·stddev, sma, sma - k·stddev}` with
`stddev = sqrt(variance_sum / period)` and store it. -/
noncomputable def BollingerBands.update (b : BollingerBands) (price : ℚ) :
    BollingerBandsResult × BollingerBands :=
  let h := b.next_window price
  if h.length < b.period then
    (⟨0, 0, 0⟩, { b with price_history := h })
  else
    let sma := window_sma h b.period
    let variance_sum := window_variance_sum h sma
    let std_dev : ℝ := Real.sqrt ((variance_sum : ℝ) / (b.period : ℝ))
    let bands : BollingerBandsResult :=
      ⟨(sma : ℝ) + b.std_dev_multiplier * std_dev, (sma : ℝ),
        (sma : ℝ) - b.std_dev_multiplier * std_dev⟩
    (bands, { b with price_history := h, current_bands := bands,
                     initialized := true })

/-- Factor 1 of `MeanReversionStrategy::calculate_confidence`: RSI
momentum strength, capped at 1. -/
noncomputable def rsi_score (rsi : ℝ) : ℝ :=
  min 1 (if rsi ≤ 30 then (30 - rsi) / 30
         else if 70 ≤ rsi then (rsi - 70) / 30
         else 0)

/-- Factor 2 of `MeanReversionStrategy::calculate_confidence`: Bollinger
band extremes, capped at 1, and 0 when the band width is not positive. -/
noncomputable def bb_score (price bb_upper bb_lower : ℝ) : ℝ :=
  let bb_width := bb_upper - bb_lower
  if 0 < bb_width then
    min 1 (if price < bb_lower then (bb_lower - price) / bb_width
           else if bb_upper < price then (price - bb_upper) / bb_width
           else 0)
  else 0

/-- Factor 3 of `MeanReversionStrategy::calculate_confidence`: trend
context, `min(1, |price - ema| / ema * 10)`. -/
noncomputable def trend_score (price ema : ℝ) : ℝ :=
  min 1 (|(price - ema) / ema| * 10)

/-- Factor 4 of `MeanReversionStrategy::calculate_confidence`: volatility
regime, `min(1, bb_width / bb_middle * 20)` when the width and the middle
band are positive, otherwise 0. -/
noncomputable def vol_score (bb_upper bb_middle bb_lower : ℝ) : ℝ :=
  let bb_width := bb_upper - bb_lower
  if 0 < bb_width ∧ 0 < bb_middle then min 1 (bb_width / bb_middle * 20)
  else 0

/-- `MeanReversionStrategy::calculate_confidence`: the weighted average of
the four factor scores (weights 0.35, 0.30, 0.20, 0.15), rescaled into
`0.5 + weighted * 0.45`. -/
noncomputable def calculate_confidence
    (price ema rsi bb_upper bb_middle bb_lower : ℝ) : ℝ :=
  let total_score :=
    rsi_score rsi * 0.35 + bb_score price bb_upper bb_lower * 0.30 +
      trend_score price ema * 0.20 + vol_score bb_upper bb_middle bb_lower * 0.15
  let total_weight : ℝ := 0.35 + 0.30 + 0.20 + 0.15
  let weighted_confidence :=
    if 0 < total_weight then total_score / total_weight else 0
  0.5 + weighted_confidence * 0.45

/-- A market quote (struct `Quote` in `core/data_types.hpp`); only the
fields used by the strategy are modelled. -/
structure Quote where
  bid_price : ℚ
  ask_price : ℚ

/-- `Quote::mid_price`: `(bid_price + ask_price) / 2`. -/
def Quote.mid_price (q : Quote) : ℚ :=
  (q.bid_price + q.ask_price) / 2

/-- Trading signal (enum `Signal` in `mean_reversion_strategy.hpp`). -/
inductive Signal where
  | NONE
  | BUY
  | SELL
  | HOLD
deriving DecidableEq

/-- `struct StrategyResult` in `mean_reversion_strategy.hpp`.  The C++
default constructor leaves the price and indicator fields uninitialized;
they are modelled as 0 in the no-data result. -/
structure StrategyResult where
  signal : Signal
  confidence : ℝ
  reason : String
  current_price : ℚ
  ema_value : ℚ
  rsi_value : ℚ
  bb_upper : ℝ
  bb_middle : ℝ
  bb_lower : ℝ

/-- The indicator and parameter state of `class MeanReversionStrategy`
(the market-data client itself is external; `generate_signal` receives
the optional quote it would fetch). -/
structure MeanReversionStrategy where
  ema : RollingEMA
  rsi : RSI
  bb : BollingerBands
  rsi_oversold_threshold : ℤ
  rsi_overbought_threshold : ℤ
  confidence_threshold : ℝ

/-- `MeanReversionStrategy::generate_signal`: with no quote available,
return HOLD with confidence 0 before touching any indicator; otherwise
update the three indicators with the mid price, compute the confidence
and apply the RSI-threshold decision rule.  The numeric interpolation in
the C++ `reason` strings is elided: each branch keeps its fixed message
prefix. -/
noncomputable def MeanReversionStrategy.generate_signal
    (s : MeanReversionStrategy) (quote : Option Quote) :
    StrategyResult × MeanReversionStrategy :=
  match quote with
  | none =>
      (⟨Signal.HOLD, 0, "No quote data available", 0, 0, 0, 0, 0, 0⟩, s)
  | some q =>
      let latest_price := q.mid_price
      let ema2 := s.ema.update latest_price
      let rsi2 := s.rsi.update latest_price
      let bb_pair := s.bb.update latest_price
      let bb_result := bb_pair.1
      let ema_value := ema2.current_ema
      let rsi_value := rsi2.current_rsi
      let confidence :=
        calculate_confidence (latest_price : ℝ) (ema_value : ℝ) (rsi_value : ℝ)
          bb_result.upper_band bb_result.middle_band bb_result.lower_band
      let s2 : MeanReversionStrategy :=
        { s with ema := ema2, rsi := rsi2, bb := bb_pair.2 }
      let result : StrategyResult :=
        if rsi_value < (s.rsi_oversold_threshold : ℚ) ∧
            s.confidence_threshold ≤ confidence then
          ⟨Signal.BUY, confidence, "INSTITUTIONAL BUY", latest_price,
            ema_value, rsi_value, bb_result.upper_band, bb_result.middle_band,
            bb_result.lower_band⟩
        else if (s.rsi_overbought_threshold : ℚ) < rsi_value ∧
            s.confidence_threshold ≤ confidence then
          ⟨Signal.SELL, confidence, "INSTITUTIONAL SELL", latest_price,
            ema_value, rsi_value, bb_result.upper_band, bb_result.middle_band,
            bb_result.lower_band⟩
        else
          ⟨Signal.HOLD, confidence, "HOLD", latest_price,
            ema_value, rsi_value, bb_result.upper_band, bb_result.middle_band,
            bb_result.lower_band⟩
      (result, s2)

/-! ## Theorems -/

/-- A single buy or sell call with positive price and positive share count
preserves nonnegative cash and nonnegative position. -/
theorem apply_op_nonneg (p : Portfolio) (op : TradeOp)
    (hc : 0 ≤ p.cash) (hs : 0 ≤ p.shares_held)
    (hp : 0 < op.price) (hn : 0 < op.shares) :
    0 ≤ (p.apply_op op).cash ∧ 0 ≤ (p.apply_op op).shares_held := by
  cases op with
  | buy price shares c r =>
      simp only [TradeOp.price] at hp
      simp only [TradeOp.shares] at hn
      simp only [Portfolio.apply_op, Portfolio.execute_buy, Portfolio.can_buy]
      split
      · exact ⟨sub_nonneg.mpr (by assumption), add_nonneg hs hn.le⟩
      · exact ⟨hc, hs⟩
  | sell price shares c r =>
      simp only [TradeOp.price] at hp
      simp only [TradeOp.shares] at hn
      simp only [Portfolio.apply_op, Portfolio.execute_sell]
      split
      · have hsq : (0 : ℚ) ≤ (shares : ℚ) := by exact_mod_cast hn.le
        exact ⟨add_nonneg hc (mul_nonneg hp.le hsq),
          sub_nonneg.mpr (by assumption)⟩
      · exact ⟨hc, hs⟩

/-- A sequence of buy and sell calls with positive prices and positive
share counts preserves nonnegative cash and nonnegative position. -/
theorem apply_ops_nonneg (ops : List TradeOp) : ∀ p : Portfolio,
    0 ≤ p.cash → 0 ≤ p.shares_held →
    (∀ op ∈ ops, 0 < op.price ∧ 0 < op.shares) →
    0 ≤ (p.apply_ops ops).cash ∧ 0 ≤ (p.apply_ops ops).shares_held := by
  induction ops with
  | nil => exact fun p hc hs _ => ⟨hc, hs⟩
  | cons op rest ih =>
      intro p hc hs hops
      have hop := hops op (List.mem_cons_self op rest)
      have h1 := apply_op_nonneg p op hc hs hop.1 hop.2
      have h2 := ih (p.apply_op op) h1.1 h1.2
        (fun o ho => hops o (List.mem_cons_of_mem op ho))
      simpa [Portfolio.apply_ops] using h2

/-- C2: starting from a portfolio with nonnegative cash and position,
any sequence of `execute_buy`/`execute_sell` calls with positive price
and positive share count keeps `cash ≥ 0` and `shares_held ≥ 0` after
each call; moreover a sell with `shares > shares_held` is rejected (the
state is unchanged) and a buy with `cash < price·shares` is rejected. -/
theorem portfolio_nonneg_invariant (p : Portfolio) (ops : List TradeOp)
    (hc : 0 ≤ p.cash) (hs : 0 ≤ p.shares_held)
    (hops : ∀ op ∈ ops, 0 < op.price ∧ 0 < op.shares) :
    (∀ n : ℕ, 0 ≤ (p.apply_ops (ops.take n)).cash ∧
        0 ≤ (p.apply_ops (ops.take n)).shares_held) ∧
    (∀ (price : ℚ) (shares : ℤ) (c : ℚ) (r : String),
        p.shares_held < shares → p.execute_sell price shares c r = p) ∧
    (∀ (price : ℚ) (shares : ℤ) (c : ℚ) (r : String),
        p.cash < price * shares → p.execute_buy price shares c r = p) := by
  refine ⟨fun n => apply_ops_nonneg (ops.take n) p hc hs
      (fun op ho => hops op (List.take_subset n ops ho)), ?_, ?_⟩
  · intro price shares c r h
    simp [Portfolio.execute_sell, not_le.mpr h]
  · intro price shares c r h
    simp [Portfolio.execute_buy, Portfolio.can_buy, not_le.mpr h]

/-- Witness for C2: $100,000 and no shares, then a buy of 1000 shares at
$50 and a sell of 500 shares at $60 leave cash and position nonnegative. -/
theorem portfolio_nonneg_invariant_witness :
    0 ≤ (Portfolio.apply_ops ⟨100000, 0, 0, [], [], 100000⟩
        ([TradeOp.buy 50 1000 (7/10) "b", TradeOp.sell 60 500 (7/10) "s"].take 2)).cash ∧
    0 ≤ (Portfolio.apply_ops ⟨100000, 0, 0, [], [], 100000⟩
        ([TradeOp.buy 50 1000 (7/10) "b", TradeOp.sell 60 500 (7/10) "s"].take 2)).shares_held :=
  (portfolio_nonneg_invariant ⟨100000, 0, 0, [], [], 100000⟩
    [TradeOp.buy 50 1000 (7/10) "b", TradeOp.sell 60 500 (7/10) "s"]
    (by norm_num) (by norm_num) (by decide)).1 2

/-- C3: `execute_buy` succeeds exactly when `cash ≥ price·shares`; on
success it subtracts the cost, adds the shares, records the buy price and
appends one BUY trade; when unaffordable it leaves the whole portfolio
unchanged. -/
theorem execute_buy_spec (p : Portfolio) (price : ℚ) (shares : ℤ)
    (confidence : ℚ) (reason : String) :
    (price * shares ≤ p.cash →
      p.execute_buy price shares confidence reason =
        { p with
          cash := p.cash - price * shares
          shares_held := p.shares_held + shares
          last_buy_price := price
          trade_history := p.trade_history ++
            [⟨"timestamp", "BUY", price, shares, price * shares,
              confidence, reason⟩] }) ∧
    (p.cash < price * shares →
      p.execute_buy price shares confidence reason = p) := by
  constructor
  · intro h
    simp [Portfolio.execute_buy, Portfolio.can_buy, h]
  · intro h
    simp [Portfolio.execute_buy, Portfolio.can_buy, not_le.mpr h]

/-- Witness for C3 (concrete scenario 4): with $100,000, buying 1000
shares at $50 succeeds and leaves cash 50,000 and 1000 shares; a further
buy of 2000 shares at $50 is rejected and changes nothing. -/
theorem execute_buy_spec_witness :
    Portfolio.execute_buy ⟨100000, 0, 0, [], [], 100000⟩ 50 1000 (7/10) "r" =
      ⟨50000, 1000, 50,
        [⟨"timestamp", "BUY", 50, 1000, 50000, 7/10, "r"⟩], [], 100000⟩ ∧
    Portfolio.execute_buy
        ⟨50000, 1000, 50, [⟨"timestamp", "BUY", 50, 1000, 50000, 7/10, "r"⟩],
          [], 100000⟩ 50 2000 (7/10) "r2" =
      ⟨50000, 1000, 50,
        [⟨"timestamp", "BUY", 50, 1000, 50000, 7/10, "r"⟩], [], 100000⟩ := by
  constructor
  · have h := (execute_buy_spec ⟨100000, 0, 0, [], [], 100000⟩ 50 1000
      (7/10) "r").1 (by norm_num)
    rw [h]
    simp only [Portfolio.mk.injEq, Trade.mk.injEq]
    norm_num
  · exact (execute_buy_spec
      ⟨50000, 1000, 50, [⟨"timestamp", "BUY", 50, 1000, 50000, 7/10, "r"⟩],
        [], 100000⟩ 50 2000 (7/10) "r2").2 (by norm_num)

/-- C9: buying `n` shares at price `p` and immediately selling the same
`n` shares at the same price restores cash and position exactly (for a
valid portfolio with `shares_held ≥ 0`, enough cash and positive `p`,
`n`). -/
theorem buy_sell_round_trip (p : Portfolio) (price : ℚ) (n : ℤ)
    (c1 c2 : ℚ) (r1 r2 : String)
    (hprice : 0 < price) (hn : 0 < n) (hs : 0 ≤ p.shares_held)
    (hcash : price * n ≤ p.cash) :
    ((p.execute_buy price n c1 r1).execute_sell price n c2 r2).cash = p.cash ∧
    ((p.execute_buy price n c1 r1).execute_sell price n c2 r2).shares_held =
      p.shares_held := by
  have hbuy := (execute_buy_spec p price n c1 r1).1 hcash
  rw [hbuy]
  have hsell : n ≤ p.shares_held + n := le_add_of_nonneg_left hs
  simp [Portfolio.execute_sell, hsell]

/-- Witness for C9: with $100,000 and no shares, buying then selling 1000
shares at $50 restores cash $100,000 and position 0. -/
theorem buy_sell_round_trip_witness :
    ((Portfolio.execute_buy ⟨100000, 0, 0, [], [], 100000⟩ 50 1000
        (7/10) "b").execute_sell 50 1000 (7/10) "s").cash = 100000 ∧
    ((Portfolio.execute_buy ⟨100000, 0, 0, [], [], 100000⟩ 50 1000
        (7/10) "b").execute_sell 50 1000 (7/10) "s").shares_held = 0 :=
  buy_sell_round_trip ⟨100000, 0, 0, [], [], 100000⟩ 50 1000 (7/10) (7/10)
    "b" "s" (by norm_num) (by norm_num) (by norm_num) (by norm_num)

/-- The drawdown walk reports 0 when the values are nondecreasing and the
initial peak is below every value: the running peak is then always the
current value. -/
theorem drawdown_fold_zero (l : List ℚ) : ∀ peak : ℚ,
    List.Pairwise (· ≤ ·) l → (∀ v ∈ l, peak ≤ v) →
    (l.foldl drawdown_step (peak, 0)).2 = 0 := by
  induction l with
  | nil => intro peak _ _; rfl
  | cons v rest ih =>
      intro peak hpair hge
      obtain ⟨hhead, htail⟩ := List.pairwise_cons.mp hpair
      have hpv : peak ≤ v := hge v (List.mem_cons_self v rest)
      have h1 : drawdown_step (peak, 0) v = (v, 0) := by
        have hpeak : (if peak < v then v else peak) = v := by
          rcases eq_or_lt_of_le hpv with h | h
          · simp [h]
          · simp [h]
        simp [drawdown_step, hpeak]
      rw [List.foldl_cons, h1]
      exact ih v htail hhead

/-- Counterexample to C1 as stated: the running peak starts at the
starting capital, so a monotonically increasing `daily_values` sequence
that begins below the starting capital yields a positive max drawdown
(here `[1, 2]` with starting capital 100,000). -/
theorem max_drawdown_monotone_cex :
    List.Pairwise (· ≤ ·) [(1 : ℚ), 2] ∧
    (calculate_final_metrics 100000 ⟨0, 0, 0, [], [(1 : ℚ), 2], 100000⟩
        0).max_drawdown_pct ≠ 0 := by
  constructor
  · norm_num
  · show ([(1 : ℚ), 2].foldl drawdown_step (100000, 0)).2 ≠ 0
    norm_num [drawdown_step]

/-- C1 (amended): for every starting capital and every monotonically
increasing `daily_values` sequence all of whose values are at least the
starting capital, `calculate_final_metrics` computes
`max_drawdown_pct = 0` (the running peak is initialized to the starting
capital). -/
theorem max_drawdown_monotone_above_start (starting_capital : ℚ)
    (p : Portfolio) (final_price : ℚ)
    (hmono : List.Pairwise (· ≤ ·) p.daily_values)
    (hge : ∀ v ∈ p.daily_values, starting_capital ≤ v) :
    (calculate_final_metrics starting_capital p
        final_price).max_drawdown_pct = 0 := by
  show (p.daily_values.foldl drawdown_step (starting_capital, 0)).2 = 0
  exact drawdown_fold_zero p.daily_values starting_capital hmono hge

/-- Witness for C1's amended form: starting capital 100,000 with daily
values `[100000, 100500]` gives zero max drawdown. -/
theorem max_drawdown_monotone_above_start_witness :
    (calculate_final_metrics 100000
        ⟨0, 0, 0, [], [(100000 : ℚ), 100500], 100000⟩ 0).max_drawdown_pct = 0 :=
  max_drawdown_monotone_above_start 100000
    ⟨0, 0, 0, [], [(100000 : ℚ), 100500], 100000⟩ 0
    (by norm_num) (by norm_num)

/-- C10: with no latest quote available, `generate_signal` returns HOLD
with confidence 0 and performs no indicator update: the EMA, RSI and
Bollinger state after the call are exactly the state before it. -/
theorem generate_signal_no_quote (s : MeanReversionStrategy) :
    (s.generate_signal none).1.signal = Signal.HOLD ∧
    (s.generate_signal none).1.confidence = 0 ∧
    (s.generate_signal none).2.ema = s.ema ∧
    (s.generate_signal none).2.rsi = s.rsi ∧
    (s.generate_signal none).2.bb = s.bb ∧
    (s.generate_signal none).2 = s :=
  ⟨rfl, rfl, rfl, rfl, rfl, rfl⟩

/-- The RSI factor score lies in `[0, 1]`. -/
theorem rsi_score_bounds (rsi : ℝ) : 0 ≤ rsi_score rsi ∧ rsi_score rsi ≤ 1 := by
  unfold rsi_score
  refine ⟨le_min zero_le_one ?_, min_le_left _ _⟩
  rcases le_or_lt rsi 30 with h | h
  · rw [if_pos h]
    exact div_nonneg (by linarith) (by norm_num)
  · rw [if_neg (not_le.mpr h)]
    rcases le_or_lt 70 rsi with h2 | h2
    · rw [if_pos h2]
      exact div_nonneg (by linarith) (by norm_num)
    · rw [if_neg (not_le.mpr h2)]

/-- The Bollinger factor score lies in `[0, 1]`. -/
theorem bb_score_bounds (price u l : ℝ) :
    0 ≤ bb_score price u l ∧ bb_score price u l ≤ 1 := by
  simp only [bb_score]
  by_cases hw : 0 < u - l
  · rw [if_pos hw]
    refine ⟨le_min zero_le_one ?_, min_le_left _ _⟩
    rcases lt_or_le price l with h | h
    · rw [if_pos h]
      exact div_nonneg (by linarith) hw.le
    · rw [if_neg (not_lt.mpr h)]
      rcases lt_or_le u price with h2 | h2
      · rw [if_pos h2]
        exact div_nonneg (by linarith) hw.le
      · rw [if_neg (not_lt.mpr h2)]
  · rw [if_neg hw]
    exact ⟨le_refl 0, zero_le_one⟩

/-- The trend factor score lies in `[0, 1]`. -/
theorem trend_score_bounds (price ema : ℝ) :
    0 ≤ trend_score price ema ∧ trend_score price ema ≤ 1 := by
  unfold trend_score
  exact ⟨le_min zero_le_one (by positivity), min_le_left _ _⟩

/-- The volatility factor score lies in `[0, 1]`. -/
theorem vol_score_bounds (u m l : ℝ) :
    0 ≤ vol_score u m l ∧ vol_score u m l ≤ 1 := by
  simp only [vol_score]
  by_cases hw : 0 < u - l ∧ 0 < m
  · rw [if_pos hw]
    refine ⟨le_min zero_le_one ?_, min_le_left _ _⟩
    exact mul_nonneg (div_nonneg hw.1.le hw.2.le) (by norm_num)
  · rw [if_neg hw]
    exact ⟨le_refl 0, zero_le_one⟩

/-- C4: for every input with `ema > 0`, `calculate_confidence` returns a
value in `[0.5, 0.95]`. -/
theorem calculate_confidence_range
    (price ema rsi bb_upper bb_middle bb_lower : ℝ) (h : 0 < ema) :
    0.5 ≤ calculate_confidence price ema rsi bb_upper bb_middle bb_lower ∧
    calculate_confidence price ema rsi bb_upper bb_middle bb_lower ≤ 0.95 := by
  have h1 := rsi_score_bounds rsi
  have h2 := bb_score_bounds price bb_upper bb_lower
  have h3 := trend_score_bounds price ema
  have h4 := vol_score_bounds bb_upper bb_middle bb_lower
  simp only [calculate_confidence]
  rw [if_pos (by norm_num : (0 : ℝ) < 0.35 + 0.30 + 0.20 + 0.15)]
  have hden : (0.35 + 0.30 + 0.20 + 0.15 : ℝ) = 1 := by norm_num
  rw [hden, div_one]
  constructor <;> nlinarith [h1.1, h1.2, h2.1, h2.2, h3.1, h3.2, h4.1, h4.2]

/-- Witness for C4 at `price = ema = 100`, `rsi = 50`, zero bands. -/
theorem calculate_confidence_range_witness :
    (0 : ℝ) < 100 ∧
    (0.5 ≤ calculate_confidence 100 100 50 0 0 0 ∧
      calculate_confidence 100 100 50 0 0 0 ≤ 0.95) :=
  ⟨by norm_num, calculate_confidence_range 100 100 50 0 0 0 (by norm_num)⟩

/-- `RollingEMA::update` preserves the EMA invariant when fed a
nonnegative input. -/
theorem ema_inv_update (e : RollingEMA) (x : ℚ) (he : e.Inv) (hx : 0 ≤ x) :
    (e.update x).Inv := by
  obtain ⟨ha, ha1, hc⟩ := he
  unfold RollingEMA.update
  split
  · exact ⟨ha, ha1, hx⟩
  · refine ⟨ha, ha1, ?_⟩
    have h1 : (0 : ℚ) ≤ 1 - e.alpha := by linarith
    exact add_nonneg (mul_nonneg ha.le hx) (mul_nonneg h1 hc)

/-- The RSI fallback formula stays in `[0, 100]` for nonnegative average
gain and loss. -/
theorem rsi_formula_bounds (gv lv : ℚ) (hgv : 0 ≤ gv) (hlv : 0 ≤ lv) :
    0 ≤ (if lv = 0 ∧ gv = 0 then (50 : ℚ) else if lv = 0 then 100
         else 100 - 100 / (1 + gv / lv)) ∧
    (if lv = 0 ∧ gv = 0 then (50 : ℚ) else if lv = 0 then 100
     else 100 - 100 / (1 + gv / lv)) ≤ 100 := by
  split_ifs with h1 h2
  · norm_num
  · norm_num
  · have hlpos : 0 < lv := lt_of_le_of_ne hlv (Ne.symm h2)
    have hrs : 0 ≤ gv / lv := div_nonneg hgv hlpos.le
    have hd : (0 : ℚ) < 1 + gv / lv := by linarith
    have hle : 100 / (1 + gv / lv) ≤ 100 := by
      rw [div_le_iff hd]
      nlinarith
    have hpos : 0 < 100 / (1 + gv / lv) := by positivity
    constructor <;> linarith

/-- `RSI::update` preserves the RSI invariant: with well-formed EMAs the
new RSI value stays in `[0, 100]`. -/
theorem rsi_inv_update (r : RSI) (price : ℚ) (hr : r.Inv) :
    (r.update price).Inv := by
  obtain ⟨hg, hl, h0, h100⟩ := hr
  simp only [RSI.update]
  split
  · exact ⟨hg, hl, h0, h100⟩
  · have hgain : (0 : ℚ) ≤
        (if 0 < price - r.previous_price then price - r.previous_price else 0) := by
      split
      · linarith [‹0 < price - r.previous_price›]
      · exact le_refl 0
    have hloss : (0 : ℚ) ≤
        (if price - r.previous_price < 0 then -(price - r.previous_price) else 0) := by
      split
      · linarith [‹price - r.previous_price < 0›]
      · exact le_refl 0
    have hg2 := ema_inv_update r.gains_ema _ hg hgain
    have hl2 := ema_inv_update r.losses_ema _ hl hloss
    have hb := rsi_formula_bounds _ _ hg2.2.2 hl2.2.2
    exact ⟨hg2, hl2, hb.1, hb.2⟩

/-- Folding any price list through `RSI::update` preserves the RSI
invariant. -/
theorem rsi_inv_foldl (prices : List ℚ) : ∀ r : RSI, r.Inv →
    (prices.foldl RSI.update r).Inv := by
  induction prices with
  | nil => exact fun r hr => hr
  | cons x rest ih =>
      intro r hr
      exact ih (r.update x) (rsi_inv_update r x hr)

/-- The freshly constructed RSI satisfies the invariant when the period
is positive. -/
theorem rsi_create_inv (period : ℤ) (hp : 1 ≤ period) :
    (RSI.create period).Inv := by
  have hden : (0 : ℚ) < (period : ℚ) + 1 := by
    have : (1 : ℚ) ≤ (period : ℚ) := by exact_mod_cast hp
    linarith
  have halpha : (0 : ℚ) < 2 / ((period : ℚ) + 1) := by positivity
  have halpha1 : 2 / ((period : ℚ) + 1) ≤ 1 := by
    rw [div_le_one hden]
    have : (1 : ℚ) ≤ (period : ℚ) := by exact_mod_cast hp
    linarith
  exact ⟨⟨halpha, halpha1, le_refl 0⟩, ⟨halpha, halpha1, le_refl 0⟩,
    by norm_num [RSI.create], by norm_num [RSI.create]⟩

/-- C5: starting from a fresh RSI with positive period, the RSI value
after every update of any price sequence lies in `[0, 100]`; moreover
`reset` on any RSI whose EMAs carry the constructed `alpha` returns it to
exactly the fresh state, so the same holds from a reset RSI. -/
theorem rsi_range (period : ℤ) (hp : 1 ≤ period) (prices : List ℚ) (n : ℕ) :
    (0 ≤ ((prices.take n).foldl RSI.update (RSI.create period)).current_rsi ∧
      ((prices.take n).foldl RSI.update (RSI.create period)).current_rsi ≤ 100) ∧
    (∀ r : RSI, r.gains_ema.alpha = 2 / ((period : ℚ) + 1) →
      r.losses_ema.alpha = 2 / ((period : ℚ) + 1) →
      r.reset = RSI.create period) := by
  constructor
  · have h := rsi_inv_foldl (prices.take n) (RSI.create period)
      (rsi_create_inv period hp)
    exact ⟨h.2.2.1, h.2.2.2⟩
  · intro r h1 h2
    simp [RSI.reset, RSI.create, RollingEMA.reset, RollingEMA.create,
      RSI.mk.injEq, RollingEMA.mk.injEq, h1, h2]

/-- Witness for C5 with the default period 14 and the price sequence
`[100, 102]`. -/
theorem rsi_range_witness :
    (1 : ℤ) ≤ 14 ∧
    (0 ≤ (([(100 : ℚ), 102].take 2).foldl RSI.update
        (RSI.create 14)).current_rsi ∧
      (([(100 : ℚ), 102].take 2).foldl RSI.update
        (RSI.create 14)).current_rsi ≤ 100) :=
  ⟨by norm_num, (rsi_range 14 (by norm_num) [100, 102] 2).1⟩

/-- C6: `RSI::update` on the first call only stores the previous price,
leaves both EMAs untouched and returns the neutral 50; on every later
call it feeds `max(change, 0)` and `max(-change, 0)` into the gain and
loss EMAs, returns 50 when both averages are zero, 100 when only the
loss average is zero and `100 - 100/(1 + avg_gain/avg_loss)` otherwise,
and stores the new price. -/
theorem rsi_update_spec (r : RSI) (price : ℚ) :
    (r.initialized = false →
      (r.update price).gains_ema = r.gains_ema ∧
      (r.update price).losses_ema = r.losses_ema ∧
      (r.update price).previous_price = price ∧
      (r.update price).current_rsi = r.current_rsi) ∧
    (∀ period : ℤ, ((RSI.create period).update price).current_rsi = 50) ∧
    (r.initialized = true →
      (r.update price).gains_ema =
        r.gains_ema.update (max (price - r.previous_price) 0) ∧
      (r.update price).losses_ema =
        r.losses_ema.update (max (-(price - r.previous_price)) 0) ∧
      (r.update price).previous_price = price ∧
      (r.update price).current_rsi =
        (if (r.losses_ema.update (max (-(price - r.previous_price)) 0)).current_ema = 0 ∧
            (r.gains_ema.update (max (price - r.previous_price) 0)).current_ema = 0
         then 50
         else if (r.losses_ema.update
            (max (-(price - r.previous_price)) 0)).current_ema = 0
         then 100
         else 100 - 100 / (1 +
            (r.gains_ema.update (max (price - r.previous_price) 0)).current_ema /
            (r.losses_ema.update
              (max (-(price - r.previous_price)) 0)).current_ema))) := by
  have hgain : (if 0 < price - r.previous_price then price - r.previous_price
      else 0) = max (price - r.previous_price) 0 := by
    rcases le_or_lt (price - r.previous_price) 0 with h | h
    · rw [if_neg (not_lt.mpr h), max_eq_right h]
    · rw [if_pos h, max_eq_left h.le]
  have hloss : (if price - r.previous_price < 0 then -(price - r.previous_price)
      else 0) = max (-(price - r.previous_price)) 0 := by
    rcases lt_or_le (price - r.previous_price) 0 with h | h
    · rw [if_pos h, max_eq_left (by linarith)]
    · rw [if_neg (not_lt.mpr h), max_eq_right (by linarith)]
  refine ⟨?_, ?_, ?_⟩
  · intro h
    simp [RSI.update, h]
  · intro period
    rfl
  · intro h
    simp only [RSI.update, h]
    rw [if_neg (by simp)]
    rw [hgain, hloss]
    exact ⟨rfl, rfl, rfl, rfl⟩

/-- Witness for C6: from a fresh RSI(14), the first update (price 100)
returns 50; the second update (price 102, a pure gain) returns 100. -/
theorem rsi_update_spec_witness :
    ((RSI.create 14).update 100).current_rsi = 50 ∧
    (((RSI.create 14).update 100).update 102).current_rsi = 100 := by
  constructor
  · exact (rsi_update_spec (RSI.create 14) 100).2.1 14
  · have hinit : ((RSI.create 14).update 100).initialized = true := rfl
    have h := ((rsi_update_spec ((RSI.create 14).update 100) 102).2.2 hinit).2.2.2
    rw [h]
    norm_num [RSI.update, RSI.create, RollingEMA.create, RollingEMA.update]

/-- C7: `BollingerBands::update` pushes the price, evicts the oldest
price exactly when the window would exceed `period`, returns the zero
result while fewer than `period` prices are held, and on a full window
returns `{sma + k·s, sma, sma - k·s}` where `sma` is the mean of the
window and `s` is the population standard deviation (`s ≥ 0`,
`s² = Σ(p - sma)²/period`, divisor `period`). -/
theorem bollinger_update_spec (b : BollingerBands) (price : ℚ)
    (hp : 1 ≤ b.period) (hlen : b.price_history.length ≤ b.period) :
    (b.price_history.length < b.period →
      b.next_window price = b.price_history ++ [price]) ∧
    (b.price_history.length = b.period →
      b.next_window price = b.price_history.tail ++ [price]) ∧
    ((b.next_window price).length < b.period →
      b.update price =
        (⟨0, 0, 0⟩, { b with price_history := b.next_window price })) ∧
    ((b.next_window price).length = b.period →
      ∃ s : ℝ, 0 ≤ s ∧
        s ^ 2 = ((window_variance_sum (b.next_window price)
            (window_sma (b.next_window price) b.period) : ℚ) : ℝ) /
          (b.period : ℝ) ∧
        (b.update price).1 =
          ⟨((window_sma (b.next_window price) b.period : ℚ) : ℝ) +
              b.std_dev_multiplier * s,
            ((window_sma (b.next_window price) b.period : ℚ) : ℝ),
            ((window_sma (b.next_window price) b.period : ℚ) : ℝ) -
              b.std_dev_multiplier * s⟩ ∧
        (b.update price).2 =
          { b with price_history := b.next_window price,
                   current_bands := (b.update price).1,
                   initialized := true } ∧
        window_sma (b.next_window price) b.period =
          (b.next_window price).sum / ((b.next_window price).length : ℚ)) := by
  refine ⟨?_, ?_, ?_, ?_⟩
  · intro h
    unfold BollingerBands.next_window
    rw [if_neg]
    simp only [List.length_append, List.length_cons, List.length_nil]
    omega
  · intro h
    unfold BollingerBands.next_window
    rw [if_pos]
    · rcases hist : b.price_history with _ | ⟨a, t⟩
      · rw [hist] at h
        simp at h
        omega
      · simp
    · simp only [List.length_append, List.length_cons, List.length_nil]
      omega
  · intro h
    simp only [BollingerBands.update]
    rw [if_pos h]
  · intro h
    have hvs : (0 : ℚ) ≤ window_variance_sum (b.next_window price)
        (window_sma (b.next_window price) b.period) := by
      unfold window_variance_sum
      apply List.sum_nonneg
      intro x hx
      simp only [List.mem_map] at hx
      obtain ⟨p, _, rfl⟩ := hx
      exact mul_self_nonneg _
    have harg : (0 : ℝ) ≤ ((window_variance_sum (b.next_window price)
        (window_sma (b.next_window price) b.period) : ℚ) : ℝ) / (b.period : ℝ) := by
      apply div_nonneg
      · exact_mod_cast hvs
      · exact Nat.cast_nonneg _
    refine ⟨Real.sqrt (((window_variance_sum (b.next_window price)
        (window_sma (b.next_window price) b.period) : ℚ) : ℝ) / (b.period : ℝ)),
      Real.sqrt_nonneg _, Real.sq_sqrt harg, ?_, ?_, ?_⟩
    · simp only [BollingerBands.update]
      rw [if_neg (by omega)]
    · simp only [BollingerBands.update]
      rw [if_neg (by omega)]
    · unfold window_sma
      rw [h]

/-- Witness for C7: a fresh BollingerBands(2, 2.0) fed one price returns
the zero result and just stores the price. -/
theorem bollinger_update_spec_witness :
    BollingerBands.update ⟨2, 2, [], ⟨0, 0, 0⟩, false⟩ 5 =
      (⟨0, 0, 0⟩, { (⟨2, 2, [], ⟨0, 0, 0⟩, false⟩ : BollingerBands) with
        price_history :=
          BollingerBands.next_window ⟨2, 2, [], ⟨0, 0, 0⟩, false⟩ 5 }) :=
  (bollinger_update_spec ⟨2, 2, [], ⟨0, 0, 0⟩, false⟩ 5 (by norm_num)
    (by simp)).2.2.1 (by simp [BollingerBands.next_window])

/-- Counterexample to C8 as stated: a BollingerBands instance constructed
with a negative standard-deviation multiplier (here `k = -1`, period 2)
produces, on a full window `[1, 3]`, bands with
`upper_band < middle_band`. -/
theorem bollinger_order_cex :
    (BollingerBands.next_window ⟨2, -1, [(1 : ℚ)], ⟨0, 0, 0⟩, false⟩ 3).length =
      (⟨2, -1, [(1 : ℚ)], ⟨0, 0, 0⟩, false⟩ : BollingerBands).period ∧
    (BollingerBands.update ⟨2, -1, [(1 : ℚ)], ⟨0, 0, 0⟩, false⟩ 3).1.upper_band <
      (BollingerBands.update ⟨2, -1, [(1 : ℚ)], ⟨0, 0, 0⟩, false⟩
        3).1.middle_band := by
  constructor
  · simp [BollingerBands.next_window]
  · simp only [BollingerBands.update, BollingerBands.next_window,
      window_sma, window_variance_sum]
    norm_num

/-- C8 (amended): whenever the rolling window is full and the
standard-deviation multiplier is nonnegative (as in every instance the
program constructs, default `k = 2.0`), the returned bands satisfy
`upper_band ≥ middle_band ≥ lower_band`. -/
theorem bollinger_order (b : BollingerBands) (price : ℚ)
    (hk : 0 ≤ b.std_dev_multiplier)
    (hfull : ¬ (b.next_window price).length < b.period) :
    (b.update price).1.lower_band ≤ (b.update price).1.middle_band ∧
    (b.update price).1.middle_band ≤ (b.update price).1.upper_band := by
  simp only [BollingerBands.update]
  rw [if_neg hfull]
  have hs := Real.sqrt_nonneg
    (((window_variance_sum (b.next_window price)
        (window_sma (b.next_window price) b.period) : ℚ) : ℝ) / (b.period : ℝ))
  have hks : 0 ≤ b.std_dev_multiplier * Real.sqrt
      (((window_variance_sum (b.next_window price)
          (window_sma (b.next_window price) b.period) : ℚ) : ℝ) /
        (b.period : ℝ)) := mul_nonneg hk hs
  constructor <;> dsimp only <;> linarith

/-- Witness for C8's amended form: BollingerBands(2, 2.0) on the full
window `[1, 3]` returns ordered bands. -/
theorem bollinger_order_witness :
    (BollingerBands.update ⟨2, 2, [(1 : ℚ)], ⟨0, 0, 0⟩, false⟩
        3).1.lower_band ≤
      (BollingerBands.update ⟨2, 2, [(1 : ℚ)], ⟨0, 0, 0⟩, false⟩
        3).1.middle_band ∧
    (BollingerBands.update ⟨2, 2, [(1 : ℚ)], ⟨0, 0, 0⟩, false⟩
        3).1.middle_band ≤
      (BollingerBands.update ⟨2, 2, [(1 : ℚ)], ⟨0, 0, 0⟩, false⟩
        3).1.upper_band :=
  bollinger_order ⟨2, 2, [(1 : ℚ)], ⟨0, 0, 0⟩, false⟩ 3 (by norm_num)
    (by simp [BollingerBands.next_window])

end Quantlab
